import Mathlib

/-!
# Verification of rust-minicat

A shallow embedding of the `rust-minicat` program (a simplified `cat`):
`src/lib.rs` declares the CLI (`build_cli`), parses it into a `Config`
(`get_args`), and `run` iterates the configured sources, printing each
successfully decoded line with an optional line-number prefix; `src/main.rs`
prints any error and exits with status 1, otherwise exits 0.

I/O is modelled explicitly: a `FileSys` maps each source name to either an
open error message or the list of line-read results (each line decodes to a
string or fails), and the program's observable behaviour is the list of
`OutEvent`s (stdout lines and stderr messages) together with exit codes.
-/

namespace Minicat

/-- One observable output event: a line written to standard output
(`println!`) or a message written to the error stream (`eprintln!`). -/
inductive OutEvent where
  | out : String → OutEvent
  | err : String → OutEvent
deriving DecidableEq, Repr

/-- `Config` (src/lib.rs lines 14-19): the list of source names, the `-n`
flag (`count_lines`) and the `-b` flag (`nonblank_number`). -/
structure Config where
  files : List String
  count_lines : Bool
  nonblank_number : Bool
deriving DecidableEq, Repr

/-- The result of reading one line from a buffered reader: the decoded
string, or a decode error (carrying its message). Mirrors the
`Result<String, io::Error>` items yielded by `file.lines()`. -/
abbrev LineResult := Except String String

/-- Abstraction of `open_file` (src/lib.rs lines 177-182) composed with
reading: each source name is mapped to its line-read results, or to the I/O
error message when opening fails. The empty name denotes standard input. -/
abbrev FileSys := String → Except String (List LineResult)

/-- `l.isOkLine` is true when the line result `l` decoded successfully. -/
def isOkLine : LineResult → Bool
  | .ok _ => true
  | .error _ => false

/-- The body of the per-file loop of `run` (src/lib.rs lines 141-157):
`number` is the 0-based `enumerate` index of the head line and `blank_count`
the number of empty decoded lines seen so far in the current file. A line
that fails to decode is skipped (`if let Ok(line) = line`) but still
consumes an `enumerate` index. Returns the stdout lines for the file. -/
def processLinesAux (count_lines nonblank_number : Bool) :
    List LineResult → Nat → Nat → List String
  | [], _, _ => []
  | l :: rest, number, blank_count =>
    match l with
    | .error _ => processLinesAux count_lines nonblank_number rest (number + 1) blank_count
    | .ok line =>
      if count_lines then
        (toString (number + 1) ++ "\t" ++ line) ::
          processLinesAux count_lines nonblank_number rest (number + 1) blank_count
      else if nonblank_number then
        if line.isEmpty then
          line :: processLinesAux count_lines nonblank_number rest (number + 1) (blank_count + 1)
        else
          (toString (number + 1 - blank_count) ++ "\t" ++ line) ::
            processLinesAux count_lines nonblank_number rest (number + 1) blank_count
      else
        line :: processLinesAux count_lines nonblank_number rest (number + 1) blank_count

/-- The stdout lines `run` produces for one successfully opened file:
the loop of src/lib.rs lines 142-157 started with `number = 0` (fresh
`enumerate`) and `blank_count = 0` (declared per file at line 141). -/
def processLines (count_lines nonblank_number : Bool) (lines : List LineResult) : List String :=
  processLinesAux count_lines nonblank_number lines 0 0

/-- The events of the `for filename in config.files` loop of `run`
(src/lib.rs lines 137-161): open each source in order; on success print its
processed lines to stdout, on failure print `Failed to open <name> due to
<err>` to stderr and continue with the remaining sources. -/
def runFiles (fsys : FileSys) (count_lines nonblank_number : Bool) : List String → List OutEvent
  | [] => []
  | filename :: rest =>
    (match fsys filename with
      | .ok file => (processLines count_lines nonblank_number file).map OutEvent.out
      | .error e => [OutEvent.err ("Failed to open " ++ filename ++ " due to " ++ e)]) ++
      runFiles fsys count_lines nonblank_number rest

/-- `run` (src/lib.rs lines 136-164): its emitted events together with its
return value. The Rust function ends with `Ok(())` unconditionally. -/
def run (fsys : FileSys) (config : Config) : List OutEvent × Except String Unit :=
  (runFiles fsys config.count_lines config.nonblank_number config.files, Except.ok ())

/-- Modelled from the spec: clap's token scan for the command line declared
by `build_cli` (src/lib.rs lines 46-67), whose implementation lives in the
`clap` dependency outside this repository. `-n` sets the `number` flag and
`-b` the `nonblank` flag (both `SetTrue`, idempotent under repetition per
`overrides_with`); every other token, hyphen-prefixed ones included
(`allow_hyphen_values(true)`), is appended to the positional `files`
argument in order. Returns `(files, number, nonblank)`. -/
def parseTokens : List String → List String × Bool × Bool
  | [] => ([], false, false)
  | t :: rest =>
    let p := parseTokens rest
    if t = "-n" then (p.1, true, p.2.2)
    else if t = "-b" then (p.1, p.2.1, true)
    else (t :: p.1, p.2.1, p.2.2)

/-- Modelled from the spec: `get_args` (src/lib.rs lines 91-104) via clap's
`get_matches`. Parsing fails with a usage message exactly when the mutually
exclusive `-n` and `-b` are both present (`conflicts_with("nonblank")` at
line 61); otherwise the positional `files` falls back to its
`default_value("")` (line 53) when no file token was supplied, and the two
flags are read with `get_flag`. -/
def get_args (args : List String) : Except String Config :=
  let p := parseTokens args
  if p.2.1 && p.2.2 then
    Except.error "error: the argument -n cannot be used with -b\nUsage: minicat [FILES]... [-n] [-b]"
  else
    Except.ok { files := if p.1.isEmpty then [""] else p.1,
                count_lines := p.2.1, nonblank_number := p.2.2 }

/-- `main` (src/main.rs): evaluate `get_args().and_then(run)`; on `Err(e)`
print `e` to the error stream and `exit(1)`, otherwise fall off the end of
`main` (exit code 0). Returns the emitted events and the exit code. -/
def mainRun (fsys : FileSys) (args : List String) : List OutEvent × Nat :=
  match get_args args with
  | .error e => ([OutEvent.err e], 1)
  | .ok config =>
    match run fsys config with
    | (events, .ok _) => (events, 0)
    | (events, .error e) => (events ++ [OutEvent.err e], 1)

/-- Number of empty lines among the first `i` decoded lines of a file. -/
def blanksBefore (ds : List String) (i : Nat) : Nat :=
  ((ds.take i).filter (fun l => l.isEmpty)).length

/-! ## Helper lemmas -/

theorem processLinesAux_plain (ds : List String) :
    ∀ (n b : Nat), processLinesAux false false (ds.map Except.ok) n b = ds := by
  induction ds with
  | nil => intro n b; rfl
  | cons x rest ih => intro n b; simp [processLinesAux, ih]

theorem processLinesAux_length (cl nb : Bool) (ls : List LineResult) :
    ∀ (n b : Nat), (processLinesAux cl nb ls n b).length = ls.countP isOkLine := by
  induction ls with
  | nil => intro n b; rfl
  | cons l rest ih =>
    intro n b
    match l with
    | .error e => simp [processLinesAux, List.countP_cons, isOkLine, ih]
    | .ok line =>
      cases cl with
      | true => simp [processLinesAux, List.countP_cons, isOkLine, ih]
      | false =>
        cases nb with
        | true =>
          by_cases he : line.isEmpty <;>
            simp [processLinesAux, he, List.countP_cons, isOkLine, ih]
        | false => simp [processLinesAux, List.countP_cons, isOkLine, ih]

theorem countP_isOkLine_map (ds : List String) :
    (ds.map Except.ok).countP isOkLine = ds.length := by
  induction ds with
  | nil => rfl
  | cons x rest ih => simp [List.countP_cons, isOkLine, ih]

theorem processLinesAux_numbered (nb : Bool) (ds : List String) :
    ∀ (n b i : Nat) (h : i < ds.length),
      (processLinesAux true nb (ds.map Except.ok) n b)[i]? =
        some (toString (n + i + 1) ++ "\t" ++ ds.get ⟨i, h⟩) := by
  induction ds with
  | nil => intro n b i h; exact absurd h (by simp)
  | cons x rest ih =>
    intro n b i h
    match i with
    | 0 => simp [processLinesAux]
    | i + 1 =>
      have hi : i < rest.length := by simpa using Nat.lt_of_succ_lt_succ h
      have harg : n + 1 + i + 1 = n + (i + 1) + 1 := by omega
      have := ih (n + 1) b i hi
      rw [harg] at this
      simpa [processLinesAux] using this

theorem blanksBefore_zero (ds : List String) : blanksBefore ds 0 = 0 := by
  simp [blanksBefore]

theorem blanksBefore_cons_succ (x : String) (rest : List String) (i : Nat) :
    blanksBefore (x :: rest) (i + 1) =
      (if x.isEmpty then 1 else 0) + blanksBefore rest i := by
  by_cases he : x.isEmpty <;>
    simp [blanksBefore, List.filter_cons, he, Nat.add_comm]

theorem processLinesAux_nonblank (ds : List String) :
    ∀ (n b i : Nat) (h : i < ds.length),
      (processLinesAux false true (ds.map Except.ok) n b)[i]? =
        some (if (ds.get ⟨i, h⟩).isEmpty then ds.get ⟨i, h⟩
              else toString (n + i + 1 - (b + blanksBefore ds i)) ++ "\t" ++ ds.get ⟨i, h⟩) := by
  induction ds with
  | nil => intro n b i h; exact absurd h (by simp)
  | cons x rest ih =>
    intro n b i h
    match i with
    | 0 =>
      by_cases he : x.isEmpty <;>
        simp [processLinesAux, he, blanksBefore_zero]
    | i + 1 =>
      have hi : i < rest.length := by simpa using Nat.lt_of_succ_lt_succ h
      rw [blanksBefore_cons_succ]
      by_cases he : x.isEmpty
      · have harg : n + 1 + i + 1 - (b + 1 + blanksBefore rest i) =
            n + (i + 1) + 1 - (1 + blanksBefore rest i + b) := by omega
        have := ih (n + 1) (b + 1) i hi
        rw [harg] at this
        simpa [processLinesAux, he, Nat.add_comm, Nat.add_assoc, Nat.add_left_comm] using this
      · have harg : n + 1 + i + 1 - (b + blanksBefore rest i) =
            n + (i + 1) + 1 - (0 + blanksBefore rest i + b) := by omega
        have := ih (n + 1) b i hi
        rw [harg] at this
        simpa [processLinesAux, he, Nat.add_comm, Nat.add_assoc, Nat.add_left_comm] using this

theorem length_filter_add_length_filter_not (p : String → Bool) (l : List String) :
    (l.filter p).length + (l.filter (fun a => !p a)).length = l.length := by
  induction l with
  | nil => rfl
  | cons x rest ih =>
    by_cases hx : p x <;> simp [List.filter_cons, hx] <;> omega

theorem runFiles_append (fsys : FileSys) (cl nb : Bool) (fs₁ fs₂ : List String) :
    runFiles fsys cl nb (fs₁ ++ fs₂) =
      runFiles fsys cl nb fs₁ ++ runFiles fsys cl nb fs₂ := by
  induction fs₁ with
  | nil => simp [runFiles]
  | cons f rest ih => simp [runFiles, ih, List.append_assoc]

theorem parseTokens_mem_number (args : List String) (h : "-n" ∈ args) :
    (parseTokens args).2.1 = true := by
  induction args with
  | nil => cases h
  | cons t rest ih =>
    rcases List.mem_cons.mp h with h1 | h2
    · subst h1
      simp [parseTokens]
    · by_cases hn : t = "-n"
      · simp [parseTokens, hn]
      · by_cases hb : t = "-b" <;> simp [parseTokens, hn, hb, ih h2]

theorem parseTokens_mem_nonblank (args : List String) (h : "-b" ∈ args) :
    (parseTokens args).2.2 = true := by
  induction args with
  | nil => cases h
  | cons t rest ih =>
    rcases List.mem_cons.mp h with h1 | h2
    · subst h1
      simp [parseTokens]
    · by_cases hn : t = "-n"
      · simp [parseTokens, hn, ih h2]
      · by_cases hb : t = "-b" <;> simp [parseTokens, hn, hb, ih h2]

/-! ## Claims -/

/-! ## Claims -/

/-- C5: with neither `-n` nor `-b`, the output for a file whose lines all
decode is line-wise identical to the input: the k-th output line equals the
k-th input line, unprefixed. -/
theorem plain_output_verbatim (ds : List String) :
    processLines false false (ds.map Except.ok) = ds :=
  processLinesAux_plain ds 0 0

/-- C1: with `-b`, for a file whose lines `ds` all decode, the output has one
line per input line; each empty line is printed unprefixed, and each
non-empty line at 0-based index `i` is printed as
`<(i+1) - blanksBefore ds i>\t<line>`, i.e. its 1-based position minus the
number of empty lines before it; equivalently that number is one more than
the number of non-empty lines before it, so non-blank lines are numbered
consecutively 1, 2, 3, ... ignoring blanks. -/
theorem nonblank_numbering (ds : List String) :
    (processLines false true (ds.map Except.ok)).length = ds.length ∧
    ∀ (i : Nat) (h : i < ds.length),
      (processLines false true (ds.map Except.ok))[i]? =
        some (if (ds.get ⟨i, h⟩).isEmpty then ds.get ⟨i, h⟩
              else toString (i + 1 - blanksBefore ds i) ++ "\t" ++ ds.get ⟨i, h⟩) ∧
      ((ds.get ⟨i, h⟩).isEmpty = false →
        i + 1 - blanksBefore ds i =
          ((ds.take i).filter (fun l => !l.isEmpty)).length + 1) := by
  refine ⟨?_, fun i h => ⟨?_, fun _ => ?_⟩⟩
  · rw [processLines, processLinesAux_length, countP_isOkLine_map]
  · have := processLinesAux_nonblank ds 0 0 i h
    simpa [processLines] using this
  · have h1 : (ds.take i).length = i := by
      rw [List.length_take]
      omega
    have h2 := length_filter_add_length_filter_not (fun l => l.isEmpty) (ds.take i)
    have h3 : blanksBefore ds i + ((ds.take i).filter (fun l => !l.isEmpty)).length = i := by
      rw [blanksBefore]
      omega
    omega

/-- Witness for C1 on the file `["a", "", "b"]`: the line at index 2 (the
third line, preceded by one blank) is printed as `2\tb`. -/
theorem nonblank_numbering_witness :
    (processLines false true (["a", "", "b"].map Except.ok))[2]? = some "2\tb" := by
  have h := (nonblank_numbering ["a", "", "b"]).2 2 (by decide)
  rw [h.1]
  decide

/-- C3: with `-n`, for a file whose lines `ds` all decode, the output has
exactly `ds.length` lines and the line at 0-based index `i` is
`<i+1>\t<i-th input line>`, i.e. the k-th output line is `k\t<k-th line>`
for k running 1..N in input order. -/
theorem numbered_output (nb : Bool) (ds : List String) :
    (processLines true nb (ds.map Except.ok)).length = ds.length ∧
    ∀ (i : Nat) (h : i < ds.length),
      (processLines true nb (ds.map Except.ok))[i]? =
        some (toString (i + 1) ++ "\t" ++ ds.get ⟨i, h⟩) := by
  refine ⟨?_, fun i h => ?_⟩
  · rw [processLines, processLinesAux_length, countP_isOkLine_map]
  · have := processLinesAux_numbered nb ds 0 0 i h
    simpa [processLines] using this

/-- Witness for C3 on the file `["x", "y"]`: the line at index 1 is printed
as `2\ty`. -/
theorem numbered_output_witness :
    (processLines true false (["x", "y"].map Except.ok))[1]? = some "2\ty" := by
  have h := (numbered_output false ["x", "y"]).2 1 (by decide)
  rw [h]
  decide

/-- C7: numbering state resets per source file. For any file list
`pre ++ fname :: post`, the events for `fname` are exactly
`processLines cl nb lines` — a function of that file's lines and the flags
alone, started from the fresh state `number = 0, blank_count = 0` —
independent of how many lines the files in `pre` contained; in particular
with `-n` the numbers of that file start again at 1. -/
theorem numbering_resets_per_file (fsys : FileSys) (cl nb : Bool)
    (pre post : List String) (fname : String) (lines : List LineResult)
    (h : fsys fname = Except.ok lines) :
    runFiles fsys cl nb (pre ++ fname :: post) =
      runFiles fsys cl nb pre ++
        ((processLines cl nb lines).map OutEvent.out ++ runFiles fsys cl nb post) ∧
    ∀ (ds : List String), lines = ds.map Except.ok → cl = true →
      ∀ (i : Nat) (hi : i < ds.length),
        (processLines cl nb lines)[i]? =
          some (toString (i + 1) ++ "\t" ++ ds.get ⟨i, hi⟩) := by
  constructor
  · rw [runFiles_append]
    congr 1
    simp [runFiles, h]
  · rintro ds rfl rfl i hi
    have := processLinesAux_numbered nb ds 0 0 i hi
    simpa [processLines] using this

/-- Witness for C7: with `-n`, after a three-line file `f`, the single-line
file `g` is numbered from 1 again. -/
theorem numbering_resets_per_file_witness :
    runFiles
        (fun n => if n = "f" then Except.ok [Except.ok "p", Except.ok "q", Except.ok "r"]
                  else Except.ok [Except.ok "hello"])
        true false (["f"] ++ "g" :: []) =
      runFiles
        (fun n => if n = "f" then Except.ok [Except.ok "p", Except.ok "q", Except.ok "r"]
                  else Except.ok [Except.ok "hello"])
        true false ["f"] ++
        ((processLines true false [Except.ok "hello"]).map OutEvent.out ++
          runFiles
            (fun n => if n = "f" then Except.ok [Except.ok "p", Except.ok "q", Except.ok "r"]
                      else Except.ok [Except.ok "hello"])
            true false []) :=
  (numbering_resets_per_file
    (fun n => if n = "f" then Except.ok [Except.ok "p", Except.ok "q", Except.ok "r"]
              else Except.ok [Except.ok "hello"])
    true false ["f"] [] "g" [Except.ok "hello"] rfl).1

/-- C8: a line that fails to decode is silently skipped. A file that opens
successfully contributes only stdout events (nothing on the error stream),
and the number of stdout lines equals the number of successfully decoded
lines: failed lines print nothing while every decoded line before and after
them still prints exactly one line. -/
theorem decode_failure_skipped (fsys : FileSys) (cl nb : Bool) (fname : String)
    (lines : List LineResult) (h : fsys fname = Except.ok lines) :
    runFiles fsys cl nb [fname] = (processLines cl nb lines).map OutEvent.out ∧
    (processLines cl nb lines).length = lines.countP isOkLine := by
  constructor
  · simp [runFiles, h]
  · exact processLinesAux_length cl nb lines 0 0

/-- Witness for C8 on a file whose second line fails to decode: only the two
decoded lines are printed (the skipped line still consumed its `enumerate`
index, hence `1` and `3`), and the output length is 2, not 3. -/
theorem decode_failure_skipped_witness :
    runFiles (fun _ => Except.ok [Except.ok "a", Except.error "bad", Except.ok "b"])
        true false ["f"] = [OutEvent.out "1\ta", OutEvent.out "3\tb"] ∧
    (processLines true false [Except.ok "a", Except.error "bad", Except.ok "b"]).length = 2 := by
  have h := decode_failure_skipped
    (fun _ => Except.ok [Except.ok "a", Except.error "bad", Except.ok "b"])
    true false "f" [Except.ok "a", Except.error "bad", Except.ok "b"] rfl
  exact ⟨by rw [h.1]; decide, by rw [h.2]; decide⟩

/-- C4: when a source fails to open, an error message containing that
filename is written to the error stream, the remaining sources are still
processed in order, `run` still returns `Ok(())`, and whenever argument
parsing succeeds `main` exits with code 0 regardless of open failures. -/
theorem open_failure_continues (fsys : FileSys) (cl nb : Bool) (fname e : String)
    (rest : List String) (h : fsys fname = Except.error e) :
    (∃ pre post, runFiles fsys cl nb (fname :: rest) =
        OutEvent.err (pre ++ fname ++ post) :: runFiles fsys cl nb rest) ∧
    (run fsys { files := fname :: rest, count_lines := cl, nonblank_number := nb }).2 =
      Except.ok () ∧
    ∀ (args : List String) (config : Config),
      get_args args = Except.ok config → (mainRun fsys args).2 = 0 := by
  refine ⟨⟨"Failed to open ", " due to " ++ e, ?_⟩, rfl, fun args config hc => ?_⟩
  · simp [runFiles, h, String.append_assoc]
  · simp [mainRun, hc, run]

/-- Witness for C4: the source `missing` fails to open while `ok` opens; the
error message names `missing`, the batch continues, and `run` returns ok. -/
theorem open_failure_continues_witness :
    (∃ pre post,
      runFiles (fun n => if n = "missing" then Except.error "No such file" else Except.ok [])
          false false ("missing" :: ["ok"]) =
        OutEvent.err (pre ++ "missing" ++ post) ::
          runFiles (fun n => if n = "missing" then Except.error "No such file" else Except.ok [])
            false false ["ok"]) ∧
    (run (fun n => if n = "missing" then Except.error "No such file" else Except.ok [])
        { files := "missing" :: ["ok"], count_lines := false, nonblank_number := false }).2 =
      Except.ok () ∧
    ∀ (args : List String) (config : Config),
      get_args args = Except.ok config →
        (mainRun (fun n => if n = "missing" then Except.error "No such file" else Except.ok [])
            args).2 = 0 :=
  open_failure_continues
    (fun n => if n = "missing" then Except.error "No such file" else Except.ok [])
    false false "missing" "No such file" ["ok"] rfl

/-- C2: when argument parsing fails, `main` prints the usage/error message
to the error stream and exits with status 1, without emitting any stdout
event, i.e. before processing any file. -/
theorem parse_failure_exit_one (fsys : FileSys) (args : List String) (e : String)
    (h : get_args args = Except.error e) :
    mainRun fsys args = ([OutEvent.err e], 1) := by
  simp [mainRun, h]

/-- Witness for C2 on the conflicting invocation `-n -b`: exit code 1 and a
single stderr event holding the usage message. -/
theorem parse_failure_exit_one_witness :
    mainRun (fun _ => Except.ok []) ["-n", "-b"] =
      ([OutEvent.err
          "error: the argument -n cannot be used with -b\nUsage: minicat [FILES]... [-n] [-b]"],
        1) :=
  parse_failure_exit_one (fun _ => Except.ok []) ["-n", "-b"] _ rfl

/-- C6: an invocation passing both `-n` and `-b` is rejected by argument
parsing (the flags are mutually exclusive), and the program exits with the
non-zero status 1 having emitted only the error message — no file is
processed. -/
theorem conflicting_flags_rejected (fsys : FileSys) (args : List String)
    (hn : "-n" ∈ args) (hb : "-b" ∈ args) :
    ∃ e, get_args args = Except.error e ∧ mainRun fsys args = ([OutEvent.err e], 1) := by
  have hn2 := parseTokens_mem_number args hn
  have hb2 := parseTokens_mem_nonblank args hb
  have hga : get_args args =
      Except.error
        "error: the argument -n cannot be used with -b\nUsage: minicat [FILES]... [-n] [-b]" := by
    simp [get_args, hn2, hb2]
  exact ⟨_, hga, by simp [mainRun, hga]⟩

/-- Witness for C6 on `file.txt -b -n`: parsing fails and the exit status
is 1 with only the usage message emitted. -/
theorem conflicting_flags_rejected_witness :
    ∃ e, get_args ["file.txt", "-b", "-n"] = Except.error e ∧
      mainRun (fun _ => Except.ok []) ["file.txt", "-b", "-n"] = ([OutEvent.err e], 1) :=
  conflicting_flags_rejected (fun _ => Except.ok []) ["file.txt", "-b", "-n"]
    (by decide) (by decide)

/-- C9: with no file arguments, parsing succeeds with the single
default source name `""` (standard input) and both flags off; when standard
input is immediately closed (no lines), the program emits no events and
exits with code 0. -/
theorem no_files_stdin_empty (fsys : FileSys) (h : fsys "" = Except.ok []) :
    get_args [] =
      Except.ok { files := [""], count_lines := false, nonblank_number := false } ∧
    mainRun fsys [] = ([], 0) := by
  refine ⟨rfl, ?_⟩
  simp [mainRun, get_args, parseTokens, run, runFiles, processLines, processLinesAux, h]

/-- Witness for C9 with a closed standard input: no output, exit code 0. -/
theorem no_files_stdin_empty_witness :
    get_args [] =
      Except.ok { files := [""], count_lines := false, nonblank_number := false } ∧
    mainRun (fun _ => Except.ok []) [] = ([], 0) :=
  no_files_stdin_empty (fun _ => Except.ok []) rfl

/-- C10: whenever argument parsing succeeds, the parsed file list is
non-empty — the positional `files` argument has default value `""` — so the
`.expect("at least one file")` in `get_args` is unreachable. -/
theorem get_args_files_nonempty (args : List String) (config : Config)
    (h : get_args args = Except.ok config) : config.files ≠ [] := by
  simp only [get_args] at h
  split at h
  · simp at h
  · injection h with h2
    subst h2
    cases hp : (parseTokens args).1 with
    | nil => simp [hp]
    | cons a l => simp [hp]

/-- Witness for C10: parsing `["f"]` yields the file list `["f"]`, which is
non-empty. -/
theorem get_args_files_nonempty_witness :
    ({ files := ["f"], count_lines := false, nonblank_number := false } : Config).files ≠ [] :=
  get_args_files_nonempty ["f"] _ rfl

end Minicat
